import Mathlib

/-!
Verification development for the deproject2 repository's geometric camera kernel
(src/deproject-io/src/realsense.rs and src/deproject-io/src/lib.rs).

Shallow embedding conventions:
* `f32` values are modelled exactly as rationals (`F32 := ℚ`); the floating-point
  operations used by the code (`+`, `-`, `*`, `/`, comparisons, literals) become
  the corresponding exact rational operations.
* The transcendental float functions `sqrt`, `tan`, `atan` have no exact rational
  counterpart; they are passed in as an abstract `FloatFuns` record, so every
  theorem below quantifying over `F : FloatFuns` holds for any interpretation of
  those functions (in particular for the real f32 ones).
* Rust `panic!` (and panicking slice indexing / `assert_eq!`) is modelled by an
  explicit error constructor; a shallow function returning `.panics`/`.oob`
  corresponds to a Rust execution that aborts.
* Buffers (`&[u16]`, `&[[u8;3]]`) are `List`s; indexing uses `List.get?`, and a
  `none` result corresponds to a Rust out-of-bounds panic.
-/

namespace Deproject

/-- Exact stand-in for `f32`: arithmetic is modelled on exact rationals. -/
abbrev F32 := ℚ

/-- Result of a Rust computation that may `panic!`. `.panics msg` models an
aborting execution (there is no typed error channel in the source). -/
inductive RustResult (α : Type) where
  | panics (msg : String)
  | ok (v : α)
  deriving DecidableEq

/-- The `Rs2DistortionModel` enum of realsense (the variants used by the code). -/
inductive Rs2DistortionModel where
  | None
  | BrownConrady
  | BrownConradyModified
  | BrownConradyInverse
  | FThetaFisheye
  | KannalaBrandt
  deriving DecidableEq

/-- Distortion data carried by intrinsics: a model tag and 5 coefficients. -/
structure Rs2Distortion where
  model : Rs2DistortionModel
  coeffs : Fin 5 → F32

/-- Camera intrinsics (`Rs2Intrinsics`): image size, principal point, focal
lengths, distortion. Width/height are the nonnegative `usize` values returned by
the realsense wrapper accessors. -/
structure Rs2Intrinsics where
  width : ℕ
  height : ℕ
  ppx : F32
  ppy : F32
  fx : F32
  fy : F32
  distortion : Rs2Distortion

/-- Camera extrinsics (`Rs2Extrinsics`): a 9-element rotation array and a
3-element translation array, exactly as the flat arrays in the source. -/
structure Rs2Extrinsics where
  rotation : Fin 9 → F32
  translation : Fin 3 → F32

/-- The transcendental f32 operations used by the kernel, kept abstract: the
theorems below hold for every interpretation of these functions. -/
structure FloatFuns where
  sqrt : F32 → F32
  tan : F32 → F32
  atan : F32 → F32

/-- Value of `f32::EPSILON` (2⁻²³), exact as a rational. -/
def EPSILON : F32 := 1 / 2 ^ 23

/-- The radial factor `1. + coeffs[0]*r2 + coeffs[1]*r2*r2 + coeffs[4]*r2*r2*r2`
shared by the three Brown-Conrady arms of `rs2_project_point_to_pixel`
(realsense.rs lines 36-39 and 50-53). -/
def bc_radial (c : Fin 5 → F32) (r2 : F32) : F32 :=
  1 + c 0 * r2 + c 1 * r2 * r2 + c 4 * r2 * r2 * r2

/-- Shallow embedding of `rs2_project_point_to_pixel`
(src/deproject-io/src/realsense.rs lines 27-100). -/
def rs2_project_point_to_pixel (F : FloatFuns) (intrin : Rs2Intrinsics)
    (point : Fin 3 → F32) : Fin 2 → F32 :=
  let x := point 0 / point 2
  let y := point 1 / point 2
  let c := intrin.distortion.coeffs
  let p : F32 × F32 :=
    match intrin.distortion.model with
    | .BrownConradyModified | .BrownConradyInverse =>
      let r2 := x * x + y * y
      let f := bc_radial c r2
      let xs := x * f
      let ys := y * f
      let dx := xs + 2 * c 2 * xs * ys + c 3 * (r2 + 2 * xs * xs)
      let dy := ys + 2 * c 3 * xs * ys + c 2 * (r2 + 2 * ys * ys)
      (dx, dy)
    | .BrownConrady =>
      let r2 := x * x + y * y
      let f := bc_radial c r2
      let xf := x * f
      let yf := y * f
      let dx := xf + 2 * c 2 * x * y + c 3 * (r2 + 2 * x * x)
      let dy := yf + 2 * c 3 * x * y + c 2 * (r2 + 2 * y * y)
      (dx, dy)
    | .FThetaFisheye =>
      let r0 := F.sqrt (x * x + y * y)
      let r := if r0 < EPSILON then EPSILON else r0
      let rd := 1 / c 0 * F.atan (2 * r * F.tan (c 0 / 2))
      (x * (rd / r), y * (rd / r))
    | .KannalaBrandt =>
      let r0 := F.sqrt (x * x + y * y)
      let r := if r0 < EPSILON then EPSILON else r0
      let theta := F.atan r
      let theta2 := theta * theta
      let series := 1 + theta2 * (c 0 + theta2 * (c 1 + theta2 * (c 2 + theta2 * c 3)))
      let rd := theta * series
      (x * (rd / r), y * (rd / r))
    | .None => (x, y)
  ![p.1 * intrin.fx + intrin.ppx, p.2 * intrin.fy + intrin.ppy]

/-- One iteration of the `BrownConradyInverse` deprojection loop
(realsense.rs lines 124-138): the tangential delta is computed from the
radially uncorrected `xq = x / icdist`, `yq = y / icdist`. -/
def bcInvStep (c : Fin 5 → F32) (xo yo : F32) (p : F32 × F32) : F32 × F32 :=
  let r2 := p.1 * p.1 + p.2 * p.2
  let icdist := 1 / (1 + ((c 4 * r2 + c 1) * r2 + c 0) * r2)
  let xq := p.1 / icdist
  let yq := p.2 / icdist
  let delta_x := 2 * c 2 * xq * yq + c 3 * (r2 + 2 * xq * xq)
  let delta_y := 2 * c 3 * xq * yq + c 2 * (r2 + 2 * yq * yq)
  ((xo - delta_x) * icdist, (yo - delta_y) * icdist)

/-- One iteration of the `BrownConrady` deprojection loop
(realsense.rs lines 143-155): the tangential delta uses the raw `x`, `y`. -/
def bcStep (c : Fin 5 → F32) (xo yo : F32) (p : F32 × F32) : F32 × F32 :=
  let r2 := p.1 * p.1 + p.2 * p.2
  let icdist := 1 / (1 + ((c 4 * r2 + c 1) * r2 + c 0) * r2)
  let delta_x := 2 * c 2 * p.1 * p.2 + c 3 * (r2 + 2 * p.1 * p.1)
  let delta_y := 2 * c 3 * p.1 * p.2 + c 2 * (r2 + 2 * p.2 * p.2)
  ((xo - delta_x) * icdist, (yo - delta_y) * icdist)

/-- The Newton iteration on `theta` of the `KannalaBrandt` deprojection branch
(realsense.rs lines 163-188), with fuel `n` (the code runs it with fuel 4) and
state `(theta, theta2)`; the early `break` on a small residual is the first
branch. -/
def kbNewton (c : Fin 5 → F32) (rd : F32) : ℕ → F32 × F32 → F32 × F32
  | 0, s => s
  | n + 1, s =>
    let theta := s.1
    let theta2 := s.2
    let f := theta *
        (1 + theta2 * (c 0 + theta2 * (c 1 + theta2 * (c 2 + theta2 * c 3)))) - rd
    if |f| < EPSILON then (theta, theta2)
    else
      let df := 1 + theta2 *
          (3 * c 0 + theta2 * (5 * c 1 + theta2 * (7 * c 2 + 9 * theta2 * c 3)))
      let theta1 := theta - f / df
      kbNewton c rd n (theta1, theta1 * theta1)

/-- The normalized-coordinate solve of `rs2_deproject_pixel_to_point`
(realsense.rs lines 109-203): everything before the final
`[depth * x, depth * y, depth]`. The `BrownConradyModified` arm is the
`panic!` at lines 118-120. -/
def deproject_xy (F : FloatFuns) (intrin : Rs2Intrinsics)
    (pixel : Fin 2 → F32) : RustResult (F32 × F32) :=
  let x := (pixel 0 - intrin.ppx) / intrin.fx
  let y := (pixel 1 - intrin.ppy) / intrin.fy
  let c := intrin.distortion.coeffs
  match intrin.distortion.model with
  | .BrownConradyModified =>
    .panics "Deprojection does not support BrownConradyModified"
  | .BrownConradyInverse => .ok ((bcInvStep c x y)^[10] (x, y))
  | .BrownConrady => .ok ((bcStep c x y)^[10] (x, y))
  | .KannalaBrandt =>
    let rd0 := F.sqrt (x * x + y * y)
    let rd := if rd0 < EPSILON then EPSILON else rd0
    let s := kbNewton c rd 4 (rd, rd * rd)
    let r := F.tan s.1
    .ok (x * (r / rd), y * (r / rd))
  | .FThetaFisheye =>
    let rd0 := F.sqrt (x * x + y * y)
    let rd := if rd0 < EPSILON then EPSILON else rd0
    let r := F.tan (c 0 * rd) / F.atan (2 * F.tan (c 0 / 2))
    .ok (x * (r / rd), y * (r / rd))
  | .None => .ok (x, y)

/-- Shallow embedding of `rs2_deproject_pixel_to_point`
(realsense.rs lines 102-206): solve for the normalized coordinates, then
return `[depth * x, depth * y, depth]`. -/
def rs2_deproject_pixel_to_point (F : FloatFuns) (intrin : Rs2Intrinsics)
    (pixel : Fin 2 → F32) (depth : F32) : RustResult (Fin 3 → F32) :=
  match deproject_xy F intrin pixel with
  | .panics msg => .panics msg
  | .ok p => .ok ![depth * p.1, depth * p.2, depth]

/-- Shallow embedding of `rs2_transform_point_to_point`
(realsense.rs lines 208-216), verbatim index for index. -/
def rs2_transform_point_to_point (extrin : Rs2Extrinsics)
    (from_point : Fin 3 → F32) : Fin 3 → F32 :=
  let rot := extrin.rotation
  let tl := extrin.translation
  ![rot 0 * from_point 0 + rot 3 * from_point 1 + rot 6 * from_point 2 + tl 0,
    rot 1 * from_point 0 + rot 4 * from_point 1 + rot 7 * from_point 2 + tl 1,
    rot 2 * from_point 0 + rot 5 * from_point 1 + rot 8 * from_point 2 + tl 2]

/-- Color value, a `[u8; 3]` sample. -/
abbrev Color := ℕ × ℕ × ℕ

/-- Result of running (part of) `align_images`: `.oob` models a Rust panic from
out-of-bounds slice indexing, `.panicked` an explicit `panic!` reached through a
callee, `.ok` a normal return with the final output buffer. -/
inductive AlignResult where
  | oob
  | panicked (msg : String)
  | ok (out : List Color)
  deriving DecidableEq

/-- Sequencing of a Rust `for` loop body over a list of iteration variables:
runs `f` on each element in order, threading the output buffer, and stops at the
first abnormal result. -/
def foldA {α : Type} (f : List Color → α → AlignResult) :
    List α → List Color → AlignResult
  | [], s => .ok s
  | a :: l, s =>
    match f s a with
    | .ok s' => foldA f l s'
    | r => r

/-- The integer list `a, a+1, ..., b` denoted by a Rust `a..=b` loop
(empty when `b < a`). -/
def rangeIncl (a b : ℤ) : List ℤ :=
  (List.range (b + 1 - a).toNat).map (fun (k : ℕ) => a + (k : ℤ))

/-- Rust `as i32` cast of an f32 value: truncation toward zero, saturating at
the i32 bounds. -/
def f32_to_i32 (q : F32) : ℤ :=
  max (-2147483648) (min 2147483647 (if 0 ≤ q then ⌊q⌋ else ⌈q⌉))

/-- Rust `as i32` cast of a `usize` value: wrap modulo 2³². -/
def usize_to_i32 (n : ℕ) : ℤ :=
  ((n : ℤ) + 2147483648) % 4294967296 - 2147483648

/-- The corner-bounds test of `align_images` (realsense.rs lines 260-264)
exactly as the code writes it: the first corner's lower bounds and the second
corner's upper bounds. -/
def bounds_test (x0 y0 x1 y1 cw ch : ℤ) : Prop :=
  x0 < 0 ∨ y0 < 0 ∨ x1 ≥ cw ∨ y1 ≥ ch

instance (x0 y0 x1 y1 cw ch : ℤ) : Decidable (bounds_test x0 y0 x1 y1 cw ch) := by
  unfold bounds_test
  infer_instance

/-- Deproject a depth-pixel corner, transform it into the other camera's frame,
project it there, and round `(coord + 0.5)` to i32 — the corner computation of
`align_images` (realsense.rs lines 242-258) for one corner. -/
def projectedCorner (F : FloatFuns) (depth_intrin : Rs2Intrinsics)
    (depth_to_other : Rs2Extrinsics) (other_intrin : Rs2Intrinsics)
    (pix : Fin 2 → F32) (d : F32) : RustResult (ℤ × ℤ) :=
  match rs2_deproject_pixel_to_point F depth_intrin pix d with
  | .panics m => .panics m
  | .ok depth_point =>
    let other_point := rs2_transform_point_to_point depth_to_other depth_point
    let other_pixel := rs2_project_point_to_pixel F other_intrin other_point
    .ok (f32_to_i32 (other_pixel 0 + 1 / 2), f32_to_i32 (other_pixel 1 + 1 / 2))

/-- The rectangle-transfer loop of `align_images` (realsense.rs lines 269-275):
for every `(x, y)` in the inclusive rectangle, copy `input_img[y * cw + x]`
into `output_img[idx]`; out-of-bounds indexing yields `.oob`. -/
def writeRect (input_img : List Color) (color_width : ℕ) (idx : ℕ)
    (x0 x1 y0 y1 : ℤ) (output_img : List Color) : AlignResult :=
  foldA (fun out y =>
      foldA (fun out x =>
          match input_img.get? (y.toNat * color_width + x.toNat) with
          | none => .oob
          | some c =>
            if idx < out.length then .ok (out.set idx c) else .oob)
        (rangeIncl x0 x1) out)
    (rangeIncl y0 y1) output_img

/-- The body of `align_images` for one depth pixel `(dx, dy)`
(realsense.rs lines 234-275): read the depth sample, skip zero depth, compute
the two projected corners, apply the corner-bounds test, and transfer the
rectangle. -/
def alignStep (F : FloatFuns) (depth_intrin : Rs2Intrinsics)
    (depth_to_other : Rs2Extrinsics) (other_intrin : Rs2Intrinsics)
    (depth : List ℕ) (input_img : List Color) (dy dx : ℕ)
    (output_img : List Color) : AlignResult :=
  match depth.get? (dy * depth_intrin.width + dx) with
  | none => .oob
  | some d =>
    if d = 0 then .ok output_img
    else
      match projectedCorner F depth_intrin depth_to_other other_intrin
          ![(dx : F32) - 1 / 2, (dy : F32) - 1 / 2] (d : F32) with
      | .panics m => .panicked m
      | .ok c0 =>
        match projectedCorner F depth_intrin depth_to_other other_intrin
            ![(dx : F32) + 1 / 2, (dy : F32) + 1 / 2] (d : F32) with
        | .panics m => .panicked m
        | .ok c1 =>
          if bounds_test c0.1 c0.2 c1.1 c1.2
              (usize_to_i32 other_intrin.width) (usize_to_i32 other_intrin.height) then
            .ok output_img
          else
            writeRect input_img other_intrin.width
              (dy * depth_intrin.width + dx) c0.1 c1.1 c0.2 c1.2 output_img

/-- Shallow embedding of `align_images` (realsense.rs lines 218-278): the two
nested pixel loops over the depth image, threading the output buffer. -/
def align_images (F : FloatFuns) (depth_intrin : Rs2Intrinsics)
    (depth_to_other : Rs2Extrinsics) (other_intrin : Rs2Intrinsics)
    (depth : List ℕ) (input_img : List Color)
    (output_img : List Color) : AlignResult :=
  foldA (fun out dy =>
      foldA (fun out dx =>
          alignStep F depth_intrin depth_to_other other_intrin depth input_img dy dx out)
        (List.range depth_intrin.width) out)
    (List.range depth_intrin.height) output_img

/-- Validity mask built by `realsense_mainloop` (realsense.rs line 406):
`valid[i] = depth[i] != 0`. -/
def mkValid (depth : List ℕ) : List Bool :=
  depth.map (fun d => d != 0)

/-- Position component type of the point cloud (glam `Vec3`, three f32). -/
abbrev Vec3 := F32 × F32 × F32

/-- The `ImagePointCloud` entity (src/deproject-io/src/lib.rs lines 7-13). -/
structure ImagePointCloud where
  valid : List Bool
  position : List Vec3
  color : List Color
  width : ℕ
  deriving DecidableEq

/-- Shallow embedding of `ImagePointCloud::new` (lib.rs lines 19-30): the three
`assert_eq!`s in order; `assert_eq!(valid.len() % width, 0)` panics on the `%`
itself when `width = 0` (Rust remainder by zero), before any comparison. -/
def ImagePointCloud.new (valid : List Bool) (position : List Vec3)
    (color : List Color) (width : ℕ) : RustResult ImagePointCloud :=
  if valid.length = position.length then
    if valid.length = color.length then
      if width = 0 then
        .panics "attempt to calculate the remainder with a divisor of zero"
      else if valid.length % width = 0 then
        .ok ⟨valid, position, color, width⟩
      else
        .panics "assertion failed"
    else .panics "assertion failed"
  else .panics "assertion failed"

/-! Concrete fixtures used to instantiate theorems on explicit inputs. -/

/-- A concrete interpretation of the transcendental operations (their values are
irrelevant for the fixtures below, which never reach a transcendental branch). -/
def F0 : FloatFuns := ⟨fun q => q, fun q => q, fun q => q⟩

/-- Distortion-free 1×1 intrinsics with unit focal lengths and zero principal
point. -/
def dInt1 : Rs2Intrinsics := ⟨1, 1, 0, 0, 1, 1, ⟨.None, ![0, 0, 0, 0, 0]⟩⟩

/-- Identity extrinsics. -/
def extId : Rs2Extrinsics := ⟨![1, 0, 0, 0, 1, 0, 0, 0, 1], ![0, 0, 0]⟩

/-- Extrinsics whose rotation array is zero except at flat index 1. -/
def extC1 : Rs2Extrinsics := ⟨![0, 1, 0, 0, 0, 0, 0, 0, 0], ![0, 0, 0]⟩

/-- Brown-Conrady intrinsics with only the third radial coefficient (index 4)
set to 1. -/
def intrinC2 : Rs2Intrinsics := ⟨640, 480, 0, 0, 1, 1, ⟨.BrownConrady, ![0, 0, 0, 0, 1]⟩⟩

/-- BrownConradyModified intrinsics with only the coefficient at index 4 set. -/
def intrinBCM : Rs2Intrinsics :=
  ⟨640, 480, 0, 0, 1, 1, ⟨.BrownConradyModified, ![0, 0, 0, 0, 1]⟩⟩

/-! Explicit evaluation lemmas: definitional unfoldings of the kernel functions
at argument vectors given literally, used to evaluate the fixtures. -/

/-- Definitional unfolding of the rigid transform on literal arrays. -/
theorem transform_explicit (r0 r1 r2 r3 r4 r5 r6 r7 r8 t0 t1 t2 p0 p1 p2 : F32) :
    rs2_transform_point_to_point ⟨![r0,r1,r2,r3,r4,r5,r6,r7,r8], ![t0,t1,t2]⟩ ![p0,p1,p2] =
      ![r0 * p0 + r3 * p1 + r6 * p2 + t0,
        r1 * p0 + r4 * p1 + r7 * p2 + t1,
        r2 * p0 + r5 * p1 + r8 * p2 + t2] := rfl

/-- Definitional unfolding of projection through distortion-free intrinsics. -/
theorem project_none_explicit (F : FloatFuns) (w h : ℕ)
    (ppx ppy fx fy c0 c1 c2 c3 c4 p0 p1 p2 : F32) :
    rs2_project_point_to_pixel F ⟨w, h, ppx, ppy, fx, fy, ⟨.None, ![c0,c1,c2,c3,c4]⟩⟩ ![p0,p1,p2] =
      ![p0 / p2 * fx + ppx, p1 / p2 * fy + ppy] := rfl

/-- Definitional unfolding of deprojection through distortion-free intrinsics. -/
theorem deproject_none_explicit (F : FloatFuns) (w h : ℕ)
    (ppx ppy fx fy c0 c1 c2 c3 c4 q0 q1 d : F32) :
    rs2_deproject_pixel_to_point F ⟨w, h, ppx, ppy, fx, fy, ⟨.None, ![c0,c1,c2,c3,c4]⟩⟩
        ![q0,q1] d =
      .ok ![d * ((q0 - ppx) / fx), d * ((q1 - ppy) / fy), d] := rfl

/-! Claim C1: the rigid transform. -/

/-- Transform as claim C1 reads it: the rotation array taken row-major, output
component i built from `rot[3i]`, `rot[3i+1]`, `rot[3i+2]`. -/
def transform_rowmajor_claimC1 (extrin : Rs2Extrinsics) (p : Fin 3 → F32) : Fin 3 → F32 :=
  let rot := extrin.rotation
  let tl := extrin.translation
  ![rot 0 * p 0 + rot 1 * p 1 + rot 2 * p 2 + tl 0,
    rot 3 * p 0 + rot 4 * p 1 + rot 5 * p 2 + tl 1,
    rot 6 * p 0 + rot 7 * p 1 + rot 8 * p 2 + tl 2]

/-- Definitional unfolding of the row-major reading on literal arrays. -/
theorem rowmajor_explicit (r0 r1 r2 r3 r4 r5 r6 r7 r8 t0 t1 t2 p0 p1 p2 : F32) :
    transform_rowmajor_claimC1 ⟨![r0,r1,r2,r3,r4,r5,r6,r7,r8], ![t0,t1,t2]⟩ ![p0,p1,p2] =
      ![r0 * p0 + r1 * p1 + r2 * p2 + t0,
        r3 * p0 + r4 * p1 + r5 * p2 + t1,
        r6 * p0 + r7 * p1 + r8 * p2 + t2] := rfl

/-- Claim C1 counterexample: at the extrinsics whose rotation array is `e_1`
and the input point `e_1`, the code's transform output differs from the
row-major formula the claim states (component 0 is 0, the claim's formula
gives 1). -/
theorem transform_rowmajor_counterexample :
    rs2_transform_point_to_point extC1 ![0, 1, 0] ≠
      transform_rowmajor_claimC1 extC1 ![0, 1, 0] := by
  intro h
  rw [show extC1 = ⟨![0,1,0,0,0,0,0,0,0], ![0,0,0]⟩ from rfl, transform_explicit,
    rowmajor_explicit] at h
  have h0 := congrFun h 0
  norm_num at h0

/-- Claim C1 (amended): `rs2_transform_point_to_point` returns `R·p + t` where
the rotation array is read column-major: output component i equals
`rot[i]·p[0] + rot[3+i]·p[1] + rot[6+i]·p[2] + t[i]`. -/
theorem transform_colmajor (extrin : Rs2Extrinsics) (p : Fin 3 → F32) :
    ∀ i : Fin 3,
      rs2_transform_point_to_point extrin p i =
        extrin.rotation ⟨i.1, by have := i.2; omega⟩ * p 0 +
          extrin.rotation ⟨3 + i.1, by have := i.2; omega⟩ * p 1 +
          extrin.rotation ⟨6 + i.1, by have := i.2; omega⟩ * p 2 +
          extrin.translation i := by
  intro i
  fin_cases i <;> rfl

/-! Claim C2: the Brown-Conrady radial factor. -/

/-- Projection through a Brown-Conrady-family model as claim C2 states it:
radial factor `f = 1 + k1·r2 + k2·r2² + k3·r2⁶` with `k1,k2,k3` at coefficient
indices 0, 1, 4 and tangential terms from indices 2, 3 (written for the
plain-BrownConrady tangential placement). -/
def project_bc_radial_claimC2 (intrin : Rs2Intrinsics) (point : Fin 3 → F32) : Fin 2 → F32 :=
  let x := point 0 / point 2
  let y := point 1 / point 2
  let c := intrin.distortion.coeffs
  let r2 := x * x + y * y
  let f := 1 + c 0 * r2 + c 1 * r2 ^ 2 + c 4 * r2 ^ 6
  let dx := x * f + 2 * c 2 * x * y + c 3 * (r2 + 2 * x * x)
  let dy := y * f + 2 * c 3 * x * y + c 2 * (r2 + 2 * y * y)
  ![dx * intrin.fx + intrin.ppx, dy * intrin.fy + intrin.ppy]

/-- Evaluation of the code's projection at the C2 fixture: with only
coefficient 4 set to 1 and the point (1,1,1), `r2 = 2` and the radial factor is
`1 + r2³ = 9`, so the pixel is (9, 9). -/
theorem project_intrinC2_eval : rs2_project_point_to_pixel F0 intrinC2 ![1, 1, 1] = ![9, 9] := by
  rw [show intrinC2 = ⟨640, 480, 0, 0, 1, 1, ⟨.BrownConrady, ![0, 0, 0, 0, 1]⟩⟩ from rfl]
  funext i
  fin_cases i <;>
    · simp only [rs2_project_point_to_pixel, bc_radial]
      norm_num

/-- Evaluation of the claim's formula at the same fixture: `1 + r2⁶ = 65`. -/
theorem project_claimC2_eval : project_bc_radial_claimC2 intrinC2 ![1, 1, 1] = ![65, 65] := by
  rw [show intrinC2 = ⟨640, 480, 0, 0, 1, 1, ⟨.BrownConrady, ![0, 0, 0, 0, 1]⟩⟩ from rfl]
  funext i
  fin_cases i <;>
    · simp only [project_bc_radial_claimC2]
      norm_num

/-- Claim C2 counterexample: at Brown-Conrady intrinsics with `k3 = 1` (index 4)
and the point (1,1,1), the code's projection gives pixel (9, 9) — radial factor
`1 + k3·r2³` — while the claim's formula `1 + k3·r2⁶` gives (65, 65). -/
theorem project_radial_counterexample :
    rs2_project_point_to_pixel F0 intrinC2 ![1, 1, 1] ≠
      project_bc_radial_claimC2 intrinC2 ![1, 1, 1] := by
  intro h
  rw [project_intrinC2_eval, project_claimC2_eval] at h
  have h0 := congrFun h 0
  norm_num at h0

/-- Claim C2 (amended): for the BrownConrady, BrownConradyModified and
BrownConradyInverse variants, projection computes `r2 = x² + y²` and the radial
factor `f = 1 + k1·r2 + k2·r2² + k3·r2³` with `k1,k2,k3` at coefficient indices
0, 1, 4 (first conjunct: the radial factor in closed form — exponent 3, not 6),
then applies tangential terms built from coefficients at indices 2 and 3 — to
the unscaled coordinates for BrownConrady and to the radially scaled
coordinates for the other two variants (second and third conjuncts). -/
theorem project_brown_conrady_radial (F : FloatFuns) (intrin : Rs2Intrinsics)
    (point : Fin 3 → F32) :
    (∀ r2 : F32, bc_radial intrin.distortion.coeffs r2 =
      1 + intrin.distortion.coeffs 0 * r2 + intrin.distortion.coeffs 1 * r2 ^ 2 +
        intrin.distortion.coeffs 4 * r2 ^ 3)
    ∧ (intrin.distortion.model = .BrownConrady →
      rs2_project_point_to_pixel F intrin point =
        (let x := point 0 / point 2
         let y := point 1 / point 2
         let c := intrin.distortion.coeffs
         let r2 := x * x + y * y
         let f := bc_radial c r2
         ![(x * f + 2 * c 2 * x * y + c 3 * (r2 + 2 * x * x)) * intrin.fx + intrin.ppx,
           (y * f + 2 * c 3 * x * y + c 2 * (r2 + 2 * y * y)) * intrin.fy + intrin.ppy]))
    ∧ (intrin.distortion.model = .BrownConradyModified ∨
        intrin.distortion.model = .BrownConradyInverse →
      rs2_project_point_to_pixel F intrin point =
        (let x := point 0 / point 2
         let y := point 1 / point 2
         let c := intrin.distortion.coeffs
         let r2 := x * x + y * y
         let f := bc_radial c r2
         let xs := x * f
         let ys := y * f
         ![(xs + 2 * c 2 * xs * ys + c 3 * (r2 + 2 * xs * xs)) * intrin.fx + intrin.ppx,
           (ys + 2 * c 3 * xs * ys + c 2 * (r2 + 2 * ys * ys)) * intrin.fy + intrin.ppy])) := by
  refine ⟨fun r2 => by unfold bc_radial; ring, fun hm => ?_, fun hm => ?_⟩
  · simp only [rs2_project_point_to_pixel, hm]
  · rcases hm with hm | hm <;> simp only [rs2_project_point_to_pixel, hm]

/-- Witness for the amended claim C2: both implications applied at concrete
fixtures; at the BrownConrady fixture the pixel evaluates to (9, 9) and at the
BrownConradyModified fixture (same coefficients) also to (9, 9). -/
theorem project_brown_conrady_radial_witness :
    bc_radial intrinC2.distortion.coeffs 2 = 9 ∧
    rs2_project_point_to_pixel F0 intrinC2 ![1, 1, 1] = ![9, 9] ∧
    rs2_project_point_to_pixel F0 intrinBCM ![1, 1, 1] = ![9, 9] := by
  refine ⟨?_, ?_, ?_⟩
  · have h := (project_brown_conrady_radial F0 intrinC2 ![1, 1, 1]).1 2
    rw [h, show intrinC2 = ⟨640, 480, 0, 0, 1, 1, ⟨.BrownConrady, ![0, 0, 0, 0, 1]⟩⟩ from rfl]
    norm_num
  · have h := (project_brown_conrady_radial F0 intrinC2 ![1, 1, 1]).2.1 rfl
    rw [h, show intrinC2 = ⟨640, 480, 0, 0, 1, 1, ⟨.BrownConrady, ![0, 0, 0, 0, 1]⟩⟩ from rfl]
    funext i
    fin_cases i <;> norm_num [bc_radial]
  · have h := (project_brown_conrady_radial F0 intrinBCM ![1, 1, 1]).2.2 (Or.inl rfl)
    rw [h, show intrinBCM =
      ⟨640, 480, 0, 0, 1, 1, ⟨.BrownConradyModified, ![0, 0, 0, 0, 1]⟩⟩ from rfl]
    funext i
    fin_cases i <;> norm_num [bc_radial]

/-! Claims C4 and C8: deprojection failure mode and result shape. -/

/-- Helper: the normalized-coordinate solve aborts only for the
BrownConradyModified model. -/
theorem deproject_xy_ok_of_ne (F : FloatFuns) (intrin : Rs2Intrinsics)
    (pixel : Fin 2 → F32) (h : intrin.distortion.model ≠ .BrownConradyModified) :
    ∃ xy : F32 × F32, deproject_xy F intrin pixel = .ok xy := by
  unfold deproject_xy
  cases hm : intrin.distortion.model <;> simp only
  · exact ⟨_, rfl⟩
  · exact ⟨_, rfl⟩
  · exact absurd hm h
  · exact ⟨_, rfl⟩
  · exact ⟨_, rfl⟩
  · exact ⟨_, rfl⟩

/-- Claim C4 counterexample: at BrownConradyModified intrinsics the
deprojection kernel aborts with a `panic!` (modelled by `.panics` carrying the
source's panic message); its failure is not delivered as a typed result. -/
theorem deproject_bcm_abort_counterexample :
    rs2_deproject_pixel_to_point F0 intrinBCM ![0, 0] 1 =
      .panics "Deprojection does not support BrownConradyModified" := rfl

/-- Claim C4 (amended): deprojection fails for BrownConradyModified by
panicking — aborting with the message of the `panic!` in the source, not by
returning a typed error — and succeeds with a point for every other variant. -/
theorem deproject_bcm_panics_others_ok (F : FloatFuns) (intrin : Rs2Intrinsics)
    (pixel : Fin 2 → F32) (depth : F32) :
    (intrin.distortion.model = .BrownConradyModified →
      rs2_deproject_pixel_to_point F intrin pixel depth =
        .panics "Deprojection does not support BrownConradyModified")
    ∧ (intrin.distortion.model ≠ .BrownConradyModified →
      ∃ p : Fin 3 → F32, rs2_deproject_pixel_to_point F intrin pixel depth = .ok p) := by
  constructor
  · intro hm
    unfold rs2_deproject_pixel_to_point deproject_xy
    rw [hm]
  · intro hm
    obtain ⟨xy, hxy⟩ := deproject_xy_ok_of_ne F intrin pixel hm
    exact ⟨_, by unfold rs2_deproject_pixel_to_point; rw [hxy]⟩

/-- Witness for the amended claim C4: the BrownConradyModified fixture panics,
the distortion-free fixture returns a point. -/
theorem deproject_bcm_panics_others_ok_witness :
    rs2_deproject_pixel_to_point F0 intrinBCM ![0, 0] 1 =
      .panics "Deprojection does not support BrownConradyModified"
    ∧ ∃ p : Fin 3 → F32, rs2_deproject_pixel_to_point F0 dInt1 ![0, 0] 1 = .ok p :=
  ⟨(deproject_bcm_panics_others_ok F0 intrinBCM ![0, 0] 1).1 rfl,
    (deproject_bcm_panics_others_ok F0 dInt1 ![0, 0] 1).2 (by intro h; simp [dInt1] at h)⟩

/-- Claim C8: for every model other than BrownConradyModified, deprojection
returns `[depth·x, depth·y, depth]` where `(x, y)` are the solved normalized
coordinates; in particular the Z component of any returned point equals the
input depth exactly. -/
theorem deproject_depth_scaling (F : FloatFuns) (intrin : Rs2Intrinsics)
    (pixel : Fin 2 → F32) (depth : F32)
    (h : intrin.distortion.model ≠ .BrownConradyModified) :
    (∃ xy : F32 × F32, deproject_xy F intrin pixel = .ok xy ∧
      rs2_deproject_pixel_to_point F intrin pixel depth =
        .ok ![depth * xy.1, depth * xy.2, depth])
    ∧ ∀ p : Fin 3 → F32,
        rs2_deproject_pixel_to_point F intrin pixel depth = .ok p → p 2 = depth := by
  obtain ⟨xy, hxy⟩ := deproject_xy_ok_of_ne F intrin pixel h
  constructor
  · exact ⟨xy, hxy, by unfold rs2_deproject_pixel_to_point; rw [hxy]⟩
  · intro p hp
    unfold rs2_deproject_pixel_to_point at hp
    rw [hxy] at hp
    have hp2 : (![depth * xy.1, depth * xy.2, depth] : Fin 3 → F32) = p := by
      cases hp
      rfl
    rw [← hp2]
    rfl

/-- Witness for claim C8 at the distortion-free fixture. -/
theorem deproject_depth_scaling_witness :
    ∃ xy : F32 × F32, deproject_xy F0 dInt1 ![0, 0] = .ok xy ∧
      rs2_deproject_pixel_to_point F0 dInt1 ![0, 0] 1 =
        .ok ![1 * xy.1, 1 * xy.2, 1] :=
  (deproject_depth_scaling F0 dInt1 ![0, 0] 1 (by intro h; simp [dInt1] at h)).1

/-! Claim C6: point-cloud construction. -/

/-- Claim C6 counterexample: with empty buffers and width 0 all three of the
claim's conditions hold (`0 = 0`, `0 = 0`, `0 % 0 = 0`), yet construction does
not succeed — the Rust `%` panics on a zero divisor inside the third
`assert_eq!`. -/
theorem pointcloud_new_width_zero_counterexample :
    ImagePointCloud.new [] [] [] 0 =
        .panics "attempt to calculate the remainder with a divisor of zero"
    ∧ List.length ([] : List Bool) % 0 = 0 := ⟨rfl, rfl⟩

/-- Claim C6 (amended): construction succeeds exactly when the buffer lengths
agree, the width is nonzero, and the width divides the pixel count — with
width 0 the remainder check itself panics — and on success the stored fields
equal the arguments. -/
theorem pointcloud_new_spec (valid : List Bool) (position : List Vec3)
    (color : List Color) (width : ℕ) :
    ((∃ c, ImagePointCloud.new valid position color width = .ok c) ↔
      valid.length = position.length ∧ valid.length = color.length ∧
        width ≠ 0 ∧ valid.length % width = 0)
    ∧ ∀ c, ImagePointCloud.new valid position color width = .ok c →
        c.valid = valid ∧ c.position = position ∧ c.color = color ∧ c.width = width := by
  constructor
  · constructor
    · rintro ⟨c, hc⟩
      unfold ImagePointCloud.new at hc
      split_ifs at hc with h1 h2 h3 h4 <;>
        first
          | exact ⟨h1, h2, h3, h4⟩
          | cases hc
    · rintro ⟨k1, k2, k3, k4⟩
      unfold ImagePointCloud.new
      rw [if_pos k1, if_pos k2, if_neg k3, if_pos k4]
      exact ⟨_, rfl⟩
  · intro c hc
    unfold ImagePointCloud.new at hc
    split_ifs at hc with h1 h2 h3 h4 <;> cases hc <;> exact ⟨rfl, rfl, rfl, rfl⟩

/-- Witness for the amended claim C6: a well-shaped construction succeeds and
stores its arguments. -/
theorem pointcloud_new_spec_witness :
    (∃ c, ImagePointCloud.new [true] [(0, 0, 0)] [(1, 2, 3)] 1 = .ok c)
    ∧ (⟨[true], [(0, 0, 0)], [(1, 2, 3)], 1⟩ : ImagePointCloud).valid = [true] :=
  ⟨(pointcloud_new_spec [true] [(0, 0, 0)] [(1, 2, 3)] 1).1.mpr
      ⟨rfl, rfl, one_ne_zero, rfl⟩,
    ((pointcloud_new_spec [true] [(0, 0, 0)] [(1, 2, 3)] 1).2
      ⟨[true], [(0, 0, 0)], [(1, 2, 3)], 1⟩ rfl).1⟩

/-! Claim C9: distortion-free projection identity. -/

/-- Claim C9: with the `None` distortion model and nonzero Z, projection is
exactly `[X/Z·fx + ppx, Y/Z·fy + ppy]`; the result does not depend on the
transcendental operations or the epsilon floor (second conjunct: any two
interpretations of the float functions agree). -/
theorem project_none_exact (F F' : FloatFuns) (intrin : Rs2Intrinsics)
    (point : Fin 3 → F32) (hm : intrin.distortion.model = .None)
    (hz : point 2 ≠ 0) :
    rs2_project_point_to_pixel F intrin point =
      ![point 0 / point 2 * intrin.fx + intrin.ppx,
        point 1 / point 2 * intrin.fy + intrin.ppy]
    ∧ rs2_project_point_to_pixel F intrin point =
        rs2_project_point_to_pixel F' intrin point := by
  constructor <;> simp only [rs2_project_point_to_pixel, hm]

/-- Witness for claim C9 at the distortion-free fixture and the point
(1, 2, 4): the projection evaluates to (1/4, 1/2). -/
theorem project_none_exact_witness :
    rs2_project_point_to_pixel F0 dInt1 ![1, 2, 4] =
      ![(![1, 2, 4] : Fin 3 → F32) 0 / ![1, 2, 4] 2 * dInt1.fx + dInt1.ppx,
        (![1, 2, 4] : Fin 3 → F32) 1 / ![1, 2, 4] 2 * dInt1.fy + dInt1.ppy]
    ∧ rs2_project_point_to_pixel F0 dInt1 ![1, 2, 4] =
        rs2_project_point_to_pixel F0 dInt1 ![1, 2, 4] :=
  project_none_exact F0 F0 dInt1 ![1, 2, 4] rfl
    (by rw [show (![1, 2, 4] : Fin 3 → F32) 2 = 4 from rfl]; norm_num)

/-! Generic lemmas about the loop combinator `foldA`. -/

/-- If every step of the loop succeeds and preserves an invariant, the loop
succeeds and preserves it. -/
theorem foldA_ok_of {α : Type} (f : List Color → α → AlignResult)
    (P : List Color → Prop) (l : List α)
    (h : ∀ a ∈ l, ∀ s, P s → ∃ s', f s a = .ok s' ∧ P s') :
    ∀ s, P s → ∃ s', foldA f l s = .ok s' ∧ P s' := by
  induction l with
  | nil => exact fun s hs => ⟨s, rfl, hs⟩
  | cons a l ih =>
    intro s hs
    obtain ⟨s1, hfa, hP1⟩ := h a (List.mem_cons_self a l) s hs
    obtain ⟨s2, hfold, hP2⟩ := ih (fun b hb => h b (List.mem_cons_of_mem a hb)) s1 hP1
    exact ⟨s2, by simp only [foldA, hfa, hfold], hP2⟩

/-- If no step of the loop can report an out-of-bounds access (under an
invariant the successful steps preserve), neither can the loop. -/
theorem foldA_ne_oob {α : Type} (f : List Color → α → AlignResult)
    (P : List Color → Prop) (l : List α)
    (h : ∀ a ∈ l, ∀ s, P s →
      f s a ≠ .oob ∧ ∀ s', f s a = .ok s' → P s') :
    ∀ s, P s → foldA f l s ≠ .oob := by
  induction l with
  | nil =>
    intro s _ hc
    simp only [foldA] at hc
    exact AlignResult.noConfusion hc
  | cons a l ih =>
    intro s hs hc
    obtain ⟨hne, hpres⟩ := h a (List.mem_cons_self a l) s hs
    cases hfa : f s a with
    | ok s1 =>
      simp only [foldA, hfa] at hc
      exact ih (fun b hb => h b (List.mem_cons_of_mem a hb)) s1 (hpres s1 hfa) hc
    | oob => exact hne hfa
    | panicked m =>
      simp only [foldA, hfa] at hc
      exact AlignResult.noConfusion hc

/-- If every successful step preserves an invariant, a successful loop does. -/
theorem foldA_preserves {α : Type} (f : List Color → α → AlignResult)
    (P : List Color → Prop) (l : List α)
    (h : ∀ a ∈ l, ∀ s s', P s → f s a = .ok s' → P s') :
    ∀ s s', P s → foldA f l s = .ok s' → P s' := by
  induction l with
  | nil =>
    intro s s' hs hf
    cases hf
    exact hs
  | cons a l ih =>
    intro s s' hs hf
    cases hfa : f s a with
    | ok s1 =>
      simp only [foldA, hfa] at hf
      exact ih (fun b hb => h b (List.mem_cons_of_mem a hb)) s1 s'
        (h a (List.mem_cons_self a l) s s1 hs hfa) hf
    | oob =>
      simp only [foldA, hfa] at hf
      exact AlignResult.noConfusion hf
    | panicked m =>
      simp only [foldA, hfa] at hf
      exact AlignResult.noConfusion hf

/-- Localization: if each successful step only changes buffer entries at
indices satisfying `D`, so does a successful loop. -/
theorem foldA_diffD {α : Type} (f : List Color → α → AlignResult)
    (D : ℕ → Prop) (l : List α)
    (h : ∀ a ∈ l, ∀ s s', f s a = .ok s' → ∀ i, s'.get? i ≠ s.get? i → D i) :
    ∀ s s', foldA f l s = .ok s' → ∀ i, s'.get? i ≠ s.get? i → D i := by
  induction l with
  | nil =>
    intro s s' hf i hne
    cases hf
    exact absurd rfl hne
  | cons a l ih =>
    intro s s' hf i hne
    cases hfa : f s a with
    | ok s1 =>
      simp only [foldA, hfa] at hf
      by_cases hi : s1.get? i = s.get? i
      · rw [← hi] at hne
        exact ih (fun b hb => h b (List.mem_cons_of_mem a hb)) s1 s' hf i hne
      · exact h a (List.mem_cons_self a l) s s1 hfa i hi
    | oob =>
      simp only [foldA, hfa] at hf
      exact AlignResult.noConfusion hf
    | panicked m =>
      simp only [foldA, hfa] at hf
      exact AlignResult.noConfusion hf

/-- A loop whose every step returns the state unchanged returns it unchanged. -/
theorem foldA_congr_ok {α : Type} (f : List Color → α → AlignResult)
    (l : List α) (s : List Color) (h : ∀ a ∈ l, f s a = .ok s) :
    foldA f l s = .ok s := by
  induction l with
  | nil => rfl
  | cons a l ih =>
    simp only [foldA, h a (List.mem_cons_self a l)]
    exact ih fun b hb => h b (List.mem_cons_of_mem a hb)

/-! Lemmas about `rangeIncl` and index arithmetic. -/

/-- Membership in an inclusive integer range. -/
theorem mem_rangeIncl {a b x : ℤ} : x ∈ rangeIncl a b ↔ a ≤ x ∧ x ≤ b := by
  simp only [rangeIncl, List.mem_map, List.mem_range]
  constructor
  · rintro ⟨k, hk, rfl⟩
    omega
  · intro ⟨h1, h2⟩
    exact ⟨(x - a).toNat, by omega, by omega⟩

/-- An inclusive range with its upper bound below its lower bound is empty. -/
theorem rangeIncl_eq_nil {a b : ℤ} (h : b < a) : rangeIncl a b = [] := by
  simp only [rangeIncl]
  rw [show (b + 1 - a).toNat = 0 by omega]
  rfl

/-- Raster index bound: a pixel inside a `cw × ch` image has flat index below
`cw * ch`. -/
theorem raster_index_lt {x y cw ch : ℕ} (hx : x < cw) (hy : y < ch) :
    y * cw + x < cw * ch := by
  calc y * cw + x < y * cw + cw := by omega
    _ = (y + 1) * cw := by ring
    _ ≤ ch * cw := Nat.mul_le_mul_right cw hy
    _ = cw * ch := Nat.mul_comm ch cw

/-- The wrapped `usize as i32` value never exceeds the original value. -/
theorem usize_to_i32_le (n : ℕ) : usize_to_i32 n ≤ (n : ℤ) := by
  unfold usize_to_i32
  omega

/-! Lemmas about the rectangle-transfer loop. -/

/-- With both corners inside the color image, a sufficiently long input buffer
and an in-range output index, the rectangle transfer performs no out-of-bounds
access and preserves the output length. -/
theorem writeRect_ok (input : List Color) (cw ch : ℕ) (idx : ℕ)
    (x0 x1 y0 y1 : ℤ) (out : List Color)
    (hx0 : 0 ≤ x0) (hy0 : 0 ≤ y0) (hx1 : x1 < (cw : ℤ)) (hy1 : y1 < (ch : ℤ))
    (hin : cw * ch ≤ input.length) (hidx : idx < out.length) :
    ∃ out', writeRect input cw idx x0 x1 y0 y1 out = .ok out' ∧
      out'.length = out.length := by
  unfold writeRect
  refine foldA_ok_of _ (fun s => s.length = out.length) _ ?_ out rfl
  intro y hy s hs
  rw [mem_rangeIncl] at hy
  refine foldA_ok_of _ (fun s => s.length = out.length) _ ?_ s hs
  intro x hx t ht
  rw [mem_rangeIncl] at hx
  have hxcw : x.toNat < cw := by omega
  have hych : y.toNat < ch := by omega
  have hlt : y.toNat * cw + x.toNat < input.length :=
    lt_of_lt_of_le (raster_index_lt hxcw hych) hin
  cases hg : input.get? (y.toNat * cw + x.toNat) with
  | none =>
    have := List.get?_eq_none.mp hg
    omega
  | some c =>
    simp only [hg]
    rw [if_pos (show idx < t.length by omega)]
    exact ⟨t.set idx c, rfl, by rw [List.length_set, ht]⟩

/-- The rectangle transfer writes only at the output index `idx`. -/
theorem writeRect_localized (input : List Color) (cw idx : ℕ)
    (x0 x1 y0 y1 : ℤ) (out out' : List Color)
    (h : writeRect input cw idx x0 x1 y0 y1 out = .ok out') :
    ∀ i, out'.get? i ≠ out.get? i → i = idx := by
  unfold writeRect at h
  refine foldA_diffD _ (fun i => i = idx) _ ?_ out out' h
  intro y hy s s' hf
  refine foldA_diffD _ (fun i => i = idx) _ ?_ s s' hf
  intro x hx t t' hft j hnej
  cases hg : input.get? (y.toNat * cw + x.toNat) with
  | none =>
    simp only [hg] at hft
    exact AlignResult.noConfusion hft
  | some c =>
    simp only [hg] at hft
    by_cases hlen : idx < t.length
    · rw [if_pos hlen] at hft
      cases hft
      by_contra hji
      exact hnej (List.get?_set_ne c t (Ne.symm hji))
    · rw [if_neg hlen] at hft
      cases hft

/-! Lemmas about the per-pixel step of `align_images`. -/

/-- A successful per-pixel step changes the output buffer only at the flat
depth index of that pixel, and only when the depth sample there is nonzero. -/
theorem alignStep_diff (F : FloatFuns) (dI : Rs2Intrinsics) (ext : Rs2Extrinsics)
    (oI : Rs2Intrinsics) (depth : List ℕ) (input : List Color) (dy dx : ℕ)
    (out out' : List Color)
    (h : alignStep F dI ext oI depth input dy dx out = .ok out') :
    ∀ i, out'.get? i ≠ out.get? i →
      i = dy * dI.width + dx ∧ ∃ d, depth.get? i = some d ∧ d ≠ 0 := by
  unfold alignStep at h
  cases hd : depth.get? (dy * dI.width + dx) with
  | none =>
    simp only [hd] at h
    exact AlignResult.noConfusion h
  | some d =>
    simp only [hd] at h
    by_cases hd0 : d = 0
    · rw [if_pos hd0] at h
      cases h
      intro i hne
      exact absurd rfl hne
    · rw [if_neg hd0] at h
      cases hA : projectedCorner F dI ext oI
          ![(dx : F32) - 1 / 2, (dy : F32) - 1 / 2] (d : F32) with
      | panics m =>
        simp only [hA] at h
        exact AlignResult.noConfusion h
      | ok c0 =>
        simp only [hA] at h
        cases hB : projectedCorner F dI ext oI
            ![(dx : F32) + 1 / 2, (dy : F32) + 1 / 2] (d : F32) with
        | panics m =>
          simp only [hB] at h
          exact AlignResult.noConfusion h
        | ok c1 =>
          simp only [hB] at h
          by_cases hg : bounds_test c0.1 c0.2 c1.1 c1.2
              (usize_to_i32 oI.width) (usize_to_i32 oI.height)
          · rw [if_pos hg] at h
            cases h
            intro i hne
            exact absurd rfl hne
          · rw [if_neg hg] at h
            intro i hne
            have hi := writeRect_localized input oI.width (dy * dI.width + dx)
              c0.1 c1.1 c0.2 c1.2 out out' h i hne
            exact ⟨hi, d, hi.symm ▸ hd, hd0⟩

/-- Under the in-bounds preconditions, the per-pixel step never reports an
out-of-bounds access, and on success preserves the output length. -/
theorem alignStep_ok (F : FloatFuns) (dI : Rs2Intrinsics) (ext : Rs2Extrinsics)
    (oI : Rs2Intrinsics) (depth : List ℕ) (input : List Color) (dy dx : ℕ)
    (hdx : dx < dI.width) (hdy : dy < dI.height)
    (hdep : dI.width * dI.height ≤ depth.length)
    (hin : oI.width * oI.height ≤ input.length)
    (s : List Color) (hs : depth.length ≤ s.length) :
    alignStep F dI ext oI depth input dy dx s ≠ .oob
    ∧ ∀ s', alignStep F dI ext oI depth input dy dx s = .ok s' →
        s'.length = s.length := by
  have hidx : dy * dI.width + dx < depth.length :=
    lt_of_lt_of_le (raster_index_lt hdx hdy) hdep
  unfold alignStep
  cases hd : depth.get? (dy * dI.width + dx) with
  | none =>
    have := List.get?_eq_none.mp hd
    omega
  | some d =>
    dsimp only
    by_cases hd0 : d = 0
    · rw [if_pos hd0]
      refine ⟨fun hc => AlignResult.noConfusion hc, fun s' hs' => ?_⟩
      cases hs'
      rfl
    · rw [if_neg hd0]
      cases hA : projectedCorner F dI ext oI
          ![(dx : F32) - 1 / 2, (dy : F32) - 1 / 2] (d : F32) with
      | panics m =>
        exact ⟨fun hc => AlignResult.noConfusion hc, fun s' hs' => AlignResult.noConfusion hs'⟩
      | ok c0 =>
        cases hB : projectedCorner F dI ext oI
            ![(dx : F32) + 1 / 2, (dy : F32) + 1 / 2] (d : F32) with
        | panics m =>
          exact ⟨fun hc => AlignResult.noConfusion hc, fun s' hs' => AlignResult.noConfusion hs'⟩
        | ok c1 =>
          dsimp only
          by_cases hg : bounds_test c0.1 c0.2 c1.1 c1.2
              (usize_to_i32 oI.width) (usize_to_i32 oI.height)
          · rw [if_pos hg]
            refine ⟨fun hc => AlignResult.noConfusion hc, fun s' hs' => ?_⟩
            cases hs'
            rfl
          · rw [if_neg hg]
            unfold bounds_test at hg
            push_neg at hg
            obtain ⟨hx0, hy0, hx1, hy1⟩ := hg
            obtain ⟨out', hok, hlen⟩ := writeRect_ok input oI.width oI.height
              (dy * dI.width + dx) c0.1 c1.1 c0.2 c1.2 s hx0 hy0
              (lt_of_lt_of_le hx1 (usize_to_i32_le oI.width))
              (lt_of_lt_of_le hy1 (usize_to_i32_le oI.height))
              hin (by omega)
            rw [hok]
            exact ⟨fun hc => AlignResult.noConfusion hc,
              fun s' hs' => by cases hs'; exact hlen⟩

/-! Claim C10: memory safety of `align_images`. -/

/-- Claim C10: when the depth buffer covers the depth image, the input color
buffer covers the color image, and the output buffer is at least as long as the
depth buffer, `align_images` performs no out-of-bounds slice access: its result
is never the out-of-bounds marker (it is a normal return, or the deprojection
panic, which happens before any slice access could go out of bounds). -/
theorem align_images_in_bounds (F : FloatFuns) (dI : Rs2Intrinsics)
    (ext : Rs2Extrinsics) (oI : Rs2Intrinsics) (depth : List ℕ)
    (input out0 : List Color)
    (h1 : dI.width * dI.height ≤ depth.length)
    (h2 : oI.width * oI.height ≤ input.length)
    (h3 : depth.length ≤ out0.length) :
    align_images F dI ext oI depth input out0 ≠ .oob := by
  unfold align_images
  refine foldA_ne_oob _ (fun s => s.length = out0.length) _ ?_ out0 rfl
  intro dy hdy s hs
  have hdy' := List.mem_range.mp hdy
  constructor
  · refine foldA_ne_oob _ (fun t => t.length = out0.length) _ ?_ s hs
    intro dx hdx t ht
    have hstep := alignStep_ok F dI ext oI depth input dy dx
      (List.mem_range.mp hdx) hdy' h1 h2 t (by omega)
    exact ⟨hstep.1, fun t' hft => by
      show t'.length = out0.length
      rw [hstep.2 t' hft, ht]⟩
  · intro s' hrow
    refine foldA_preserves _ (fun t => t.length = out0.length) _ ?_ s s' hs hrow
    intro dx hdx t t' ht hft
    have hstep := alignStep_ok F dI ext oI depth input dy dx
      (List.mem_range.mp hdx) hdy' h1 h2 t (by omega)
    show t'.length = out0.length
    rw [hstep.2 t' hft, ht]

/-- Witness for claim C10 on a concrete 1×1 frame. -/
theorem align_images_in_bounds_witness :
    align_images F0 dInt1 extId dInt1 [0] [(7, 7, 7)] [(1, 2, 3)] ≠ .oob :=
  align_images_in_bounds F0 dInt1 extId dInt1 [0] [(7, 7, 7)] [(1, 2, 3)]
    (by norm_num [dInt1]) (by norm_num [dInt1]) (by norm_num)

/-! Claim C5: the zero-depth sentinel. -/

/-- Claim C5: wherever the depth sample is zero, a successful `align_images`
leaves the output entry unchanged and the validity mask built from the same
depth buffer is false; every entry `align_images` changes sits at an index
whose depth sample exists and is nonzero. -/
theorem align_images_zero_depth (F : FloatFuns) (dI : Rs2Intrinsics)
    (ext : Rs2Extrinsics) (oI : Rs2Intrinsics) (depth : List ℕ)
    (input out0 out' : List Color)
    (h : align_images F dI ext oI depth input out0 = .ok out') :
    (∀ i, depth.get? i = some 0 →
      out'.get? i = out0.get? i ∧ (mkValid depth).get? i = some false)
    ∧ ∀ i, out'.get? i ≠ out0.get? i →
        ∃ d, depth.get? i = some d ∧ d ≠ 0 := by
  have hdiff : ∀ i, out'.get? i ≠ out0.get? i →
      ∃ d, depth.get? i = some d ∧ d ≠ 0 := by
    unfold align_images at h
    refine foldA_diffD _ (fun i => ∃ d, depth.get? i = some d ∧ d ≠ 0) _ ?_ out0 out' h
    intro dy hdy s s' hrow
    refine foldA_diffD _ (fun i => ∃ d, depth.get? i = some d ∧ d ≠ 0) _ ?_ s s' hrow
    intro dx hdx t t' hstep j hnej
    exact (alignStep_diff F dI ext oI depth input dy dx t t' hstep j hnej).2
  refine ⟨?_, hdiff⟩
  intro i hi
  constructor
  · by_contra hne
    obtain ⟨d, hd, hd0⟩ := hdiff i hne
    rw [hi] at hd
    cases hd
    exact hd0 rfl
  · unfold mkValid
    rw [List.get?_map, hi]
    rfl

/-- Witness for claim C5 on a concrete 1×1 frame whose only depth sample
is zero. -/
theorem align_images_zero_depth_witness :
    (([(1, 2, 3)] : List Color).get? 0 = ([(1, 2, 3)] : List Color).get? 0
      ∧ (mkValid [0]).get? 0 = some false)
    ∧ ∀ i, (([(1, 2, 3)] : List Color).get? i ≠ ([(1, 2, 3)] : List Color).get? i →
        ∃ d, ([0] : List ℕ).get? i = some d ∧ d ≠ 0) :=
  let h := align_images_zero_depth F0 dInt1 extId dInt1 [0] [(7, 7, 7)]
    [(1, 2, 3)] [(1, 2, 3)] rfl
  ⟨h.1 0 rfl, h.2⟩

/-! Claim C3: the corner-bounds test. -/

/-- The corner-bounds test as claim C3 describes it: the second corner's upper
bounds, and BOTH corners' lower bounds. -/
def bounds_test_claimC3 (x0 y0 x1 y1 cw ch : ℤ) : Prop :=
  x0 < 0 ∨ y0 < 0 ∨ x1 < 0 ∨ y1 < 0 ∨ x1 ≥ cw ∨ y1 ≥ ch

/-- Claim C3 counterexample: at corners `A = (0, 0)`, `B = (-1, 0)` in a 5×5
color image, the test the claim describes fires on the second corner's lower
bound, while the test the code performs (`bounds_test`, the guard of
`alignStep`) passes — the code never validates the second corner's lower
bounds. -/
theorem bounds_test_counterexample :
    bounds_test_claimC3 0 0 (-1) 0 5 5 ∧ ¬ bounds_test 0 0 (-1) 0 5 5 := by
  constructor
  · unfold bounds_test_claimC3
    norm_num
  · unfold bounds_test
    norm_num

/-- Claim C3 (amended): a nonzero-depth pixel is skipped exactly when the
code's corner test fires, and that test validates only the first corner's
lower bounds and the second corner's upper bounds — never the first corner's
upper bound, nor the second corner's lower bounds; when the second corner
violates a lower bound while the test passes, the projected rectangle is empty,
so the output is likewise left unchanged (second conjunct). -/
theorem alignStep_skip (F : FloatFuns) (dI : Rs2Intrinsics) (ext : Rs2Extrinsics)
    (oI : Rs2Intrinsics) (depth : List ℕ) (input out : List Color)
    (dy dx d : ℕ) (x0 y0 x1 y1 : ℤ)
    (hd : depth.get? (dy * dI.width + dx) = some d) (hd0 : d ≠ 0)
    (hA : projectedCorner F dI ext oI
      ![(dx : F32) - 1 / 2, (dy : F32) - 1 / 2] (d : F32) = .ok (x0, y0))
    (hB : projectedCorner F dI ext oI
      ![(dx : F32) + 1 / 2, (dy : F32) + 1 / 2] (d : F32) = .ok (x1, y1)) :
    (bounds_test x0 y0 x1 y1 (usize_to_i32 oI.width) (usize_to_i32 oI.height) →
      alignStep F dI ext oI depth input dy dx out = .ok out)
    ∧ (¬ bounds_test x0 y0 x1 y1 (usize_to_i32 oI.width) (usize_to_i32 oI.height) →
      x1 < 0 ∨ y1 < 0 →
      alignStep F dI ext oI depth input dy dx out = .ok out) := by
  constructor
  · intro ht
    unfold alignStep
    rw [hd]
    dsimp only
    rw [if_neg hd0, hA, hB]
    dsimp only
    rw [if_pos ht]
  · intro ht hneg
    unfold alignStep
    rw [hd]
    dsimp only
    rw [if_neg hd0, hA, hB]
    dsimp only
    rw [if_neg ht]
    unfold bounds_test at ht
    push_neg at ht
    obtain ⟨hx0, hy0, hx1, hy1⟩ := ht
    unfold writeRect
    rcases hneg with hx | hy
    · apply foldA_congr_ok
      intro y hy
      rw [rangeIncl_eq_nil (show x1 < x0 by omega)]
      rfl
    · rw [rangeIncl_eq_nil (show y1 < y0 by omega)]
      rfl

/-- Witness for the amended claim C3: on the identity fixture at depth pixel
(0, 0) with depth 5, the corners evaluate to (0, 0) and (1, 1); in the 1×1
color image the code's test fires on the second corner's upper bound and the
pixel is skipped. -/
theorem alignStep_skip_witness :
    bounds_test 0 0 1 1 (usize_to_i32 1) (usize_to_i32 1) ∧
    alignStep F0 dInt1 extId dInt1 [5] [(7, 7, 7)] 0 0 [(0, 0, 0)] =
      .ok [(0, 0, 0)] := by
  have htest : bounds_test 0 0 1 1 (usize_to_i32 1) (usize_to_i32 1) := by
    unfold bounds_test usize_to_i32
    norm_num
  have hA : projectedCorner F0 dInt1 extId dInt1
      ![((0 : ℕ) : F32) - 1 / 2, ((0 : ℕ) : F32) - 1 / 2] ((5 : ℕ) : F32) =
        .ok (0, 0) := by
    rw [show dInt1 = ⟨1, 1, 0, 0, 1, 1, ⟨.None, ![0, 0, 0, 0, 0]⟩⟩ from rfl,
      show extId = ⟨![1, 0, 0, 0, 1, 0, 0, 0, 1], ![0, 0, 0]⟩ from rfl]
    simp only [projectedCorner, deproject_none_explicit, transform_explicit,
      project_none_explicit]
    norm_num [f32_to_i32, min_def, max_def]
  have hB : projectedCorner F0 dInt1 extId dInt1
      ![((0 : ℕ) : F32) + 1 / 2, ((0 : ℕ) : F32) + 1 / 2] ((5 : ℕ) : F32) =
        .ok (1, 1) := by
    rw [show dInt1 = ⟨1, 1, 0, 0, 1, 1, ⟨.None, ![0, 0, 0, 0, 0]⟩⟩ from rfl,
      show extId = ⟨![1, 0, 0, 0, 1, 0, 0, 0, 1], ![0, 0, 0]⟩ from rfl]
    simp only [projectedCorner, deproject_none_explicit, transform_explicit,
      project_none_explicit]
    norm_num [f32_to_i32, min_def, max_def]
  exact ⟨htest,
    (alignStep_skip F0 dInt1 extId dInt1 [5] [(7, 7, 7)] [(0, 0, 0)]
      0 0 5 0 0 1 1 rfl (by norm_num) hA hB).1 htest⟩

end Deproject
